import Mathlib

/-!
Verification of the nvshare scheduler/client against its specification.

The definitions below are shallow embeddings of the C sources:
`src/common.c` (strlcpy), `src/hook.c` (memory shim and kernel submission
rate controller), `src/cli.c` (nvsharectl), `src/client.c` (client gate and
background worker) and `src/scheduler.c` (the scheduler daemon).
Machine integers are modelled as `Nat`/`Int` with explicit reduction
modulo `2 ^ w` exactly where the C code can overflow.
-/

set_option maxHeartbeats 1000000
set_option maxRecDepth 2000

/-! ### strlcpy (src/common.c) -/

/-- NUL character, the C string terminator. -/
def nulChar : Char := Char.ofNat 0

/-- The copy loop of `strlcpy` (common.c, lines 56-61):
`while (--nleft != 0) { if ((*dst++ = *src++) == '\0') break; }`.
`src` holds the characters of the C source string before its terminating
NUL.  Returns the bytes written by the loop together with the final value
of `nleft` (`0` exactly when the loop ran out of room). -/
def strlcpyLoop : List Char → Nat → List Char × Nat
  | [], nleft => if nleft ≤ 1 then ([], 0) else ([nulChar], nleft - 1)
  | c :: rest, nleft =>
    if nleft ≤ 1 then ([], 0)
    else
      let p := strlcpyLoop rest (nleft - 1)
      (c :: p.1, p.2)

/-- Model of `strlcpy` (common.c, lines 49-72).  Returns the bytes stored into `dst`
(including the terminating NUL when one is written) and the return value,
which the C code computes as `src - osrc - 1 = strlen(src)`. -/
def strlcpy_model (src : List Char) (dsize : Nat) : List Char × Nat :=
  if dsize = 0 then ([], src.length)
  else
    let p := strlcpyLoop src dsize
    if p.2 = 0 then (p.1 ++ [nulChar], src.length) else (p.1, src.length)

theorem strlcpyLoop_spec (src : List Char) :
    ∀ nleft, 1 ≤ nleft →
      (if (strlcpyLoop src nleft).2 = 0 then (strlcpyLoop src nleft).1 ++ [nulChar]
       else (strlcpyLoop src nleft).1) = src.take (nleft - 1) ++ [nulChar] := by
  induction src with
  | nil =>
    intro nleft h1
    by_cases h : nleft ≤ 1
    · have : nleft = 1 := Nat.le_antisymm h h1
      subst this
      simp [strlcpyLoop]
    · simp only [strlcpyLoop, if_neg h]
      have hne : nleft - 1 ≠ 0 := by omega
      simp [hne]
  | cons c rest ih =>
    intro nleft h1
    by_cases h : nleft ≤ 1
    · have : nleft = 1 := Nat.le_antisymm h h1
      subst this
      simp [strlcpyLoop]
    · have h2 : 1 ≤ nleft - 1 := by omega
      have := ih (nleft - 1) h2
      simp only [strlcpyLoop, if_neg h]
      have hn : nleft - 1 - 1 = nleft - 2 := by omega
      rw [hn] at this
      have htake : (c :: rest).take (nleft - 1) = c :: rest.take (nleft - 2) := by
        have : nleft - 1 = (nleft - 2) + 1 := by omega
        rw [this, List.take_succ_cons]
      rw [htake]
      by_cases hz : (strlcpyLoop rest (nleft - 1)).2 = 0
      · rw [if_pos hz] at this
        rw [if_pos hz, List.cons_append, this]
        rfl
      · rw [if_neg hz] at this
        rw [if_neg hz, this]
        rfl

theorem strlcpy_dst (src : List Char) (dsize : Nat) (h : 0 < dsize) :
    (strlcpy_model src dsize).1 = src.take (dsize - 1) ++ [nulChar] := by
  have hd : dsize ≠ 0 := Nat.pos_iff_ne_zero.mp h
  have := strlcpyLoop_spec src dsize h
  unfold strlcpy_model
  rw [if_neg hd]
  by_cases hz : (strlcpyLoop src dsize).2 = 0
  · simp only [hz, if_pos rfl] at this ⊢
    exact this
  · simp only [if_neg hz] at this ⊢
    exact this

/-- C10: for every destination size `dsize > 0` and source string,
`strlcpy` copies at most `dsize - 1` characters, always NUL-terminates the
destination, and returns `strlen(src)` (so a return value `≥ dsize` means
the copy was truncated); with `dsize = 0` it writes nothing at all. -/
theorem c10_strlcpy_contract (src : List Char) (dsize : Nat) :
    (strlcpy_model src dsize).2 = src.length
    ∧ (dsize = 0 → (strlcpy_model src dsize).1 = [])
    ∧ (0 < dsize →
        (strlcpy_model src dsize).1 = src.take (dsize - 1) ++ [nulChar]
        ∧ (strlcpy_model src dsize).1.length ≤ dsize
        ∧ ((strlcpy_model src dsize).1.dropLast).length ≤ dsize - 1
        ∧ (dsize ≤ (strlcpy_model src dsize).2 ↔ src.take (dsize - 1) ≠ src)) := by
  refine ⟨?_, ?_, ?_⟩
  · unfold strlcpy_model
    by_cases h : dsize = 0
    · simp [h]
    · simp only [if_neg h]
      by_cases hz : (strlcpyLoop src dsize).2 = 0 <;> simp [hz]
  · intro h; simp [strlcpy_model, h]
  · intro h
    have hdst := strlcpy_dst src dsize h
    have hret : (strlcpy_model src dsize).2 = src.length := by
      unfold strlcpy_model
      rw [if_neg (Nat.pos_iff_ne_zero.mp h)]
      by_cases hz : (strlcpyLoop src dsize).2 = 0 <;> simp [hz]
    refine ⟨hdst, ?_, ?_, ?_⟩
    · rw [hdst]
      simp only [List.length_append, List.length_take, List.length_cons,
        List.length_nil]
      omega
    · rw [hdst]
      simp only [List.dropLast_concat, List.length_take]
      omega
    · rw [hret]
      constructor
      · intro hle hcontra
        have := congrArg List.length hcontra
        simp only [List.length_take] at this
        omega
      · intro hne
        by_contra hlt
        push_neg at hlt
        exact hne (List.take_of_length_le (by omega))

/-! ### Numeric conversions shared by daemon, client and hooks -/

/-- The constant `2 ^ 64`, the modulus of C `size_t` / `uint64_t` arithmetic. -/
def U64 : Nat := 2 ^ 64

/-- 64-bit unsigned subtraction `a - b` (wrapping), for `a < 2 ^ 64`. -/
def usub64 (a b : Nat) : Nat := (a + U64 - b % U64) % U64

/-- Truncating cast of a C `long long` value to `int`
(two's complement, 32 bits), as in `(int)strtoll(...)`. -/
def toInt32 (v : Int) : Int :=
  let m := v % (2 ^ 32 : Int)
  if m < 2 ^ 31 then m else m - 2 ^ 32

/-- Hex digit character for `d < 16`, lowercase as printf `%x` produces. -/
def hexDigitChar (d : Nat) : Char :=
  if d < 10 then Char.ofNat (48 + d) else Char.ofNat (87 + d)

/-- The `k` low hex digits of `n`, most significant first:
the output of `snprintf(buf, k+1, "%0*llx", k, n)` for `n < 16 ^ k`. -/
def toHexDigits : Nat → Nat → List Char
  | 0, _ => []
  | k + 1, n => toHexDigits k (n / 16) ++ [hexDigitChar (n % 16)]

/-- Numeric value of a hex digit character (0 for non-digits). -/
def hexVal (c : Char) : Nat :=
  if '0' ≤ c ∧ c ≤ '9' then c.toNat - 48
  else if 'a' ≤ c ∧ c ≤ 'f' then c.toNat - 87
  else if 'A' ≤ c ∧ c ≤ 'F' then c.toNat - 55
  else 0

/-- Value that `sscanf(s, "%" SCNx64, &x)` stores for an all-hex-digit
string `s` (client.c, lines 261 and 272). -/
def parseHexChars (cs : List Char) : Nat :=
  cs.foldl (fun a c => a * 16 + hexVal c) 0

theorem hexVal_hexDigitChar : ∀ d : Fin 16, hexVal (hexDigitChar d.val) = d.val := by
  decide

theorem parseHexChars_append_digit (l : List Char) (c : Char) :
    parseHexChars (l ++ [c]) = parseHexChars l * 16 + hexVal c := by
  simp [parseHexChars, List.foldl_append]

theorem parseHex_toHexDigits : ∀ k n, n < 16 ^ k → parseHexChars (toHexDigits k n) = n := by
  intro k
  induction k with
  | zero => intro n hn; interval_cases n; rfl
  | succ k ih =>
    intro n hn
    have hdiv : n / 16 < 16 ^ k := by
      apply Nat.div_lt_of_lt_mul
      have hp : (16 : Nat) ^ (k + 1) = 16 * 16 ^ k := by ring
      omega
    have hmod : n % 16 < 16 := Nat.mod_lt _ (by norm_num)
    calc parseHexChars (toHexDigits (k + 1) n)
        = parseHexChars (toHexDigits k (n / 16) ++ [hexDigitChar (n % 16)]) := rfl
      _ = parseHexChars (toHexDigits k (n / 16)) * 16 + hexVal (hexDigitChar (n % 16)) :=
          parseHexChars_append_digit _ _
      _ = n / 16 * 16 + hexVal (hexDigitChar (n % 16)) := by rw [ih _ hdiv]
      _ = n / 16 * 16 + n % 16 := by rw [hexVal_hexDigitChar ⟨n % 16, hmod⟩]
      _ = n := by omega

/-! ### strtoll with base 0 (used by the daemon for SET_TQ, scheduler.c line 454) -/

/-- C `isspace` for the default locale. -/
def isSpaceCh (c : Char) : Bool :=
  c = ' ' || c = '\t' || c = '\n' || c = '\x0b' || c = '\x0c' || c = '\r'

/-- Digit value of `c` in the given base (letters for bases above 10),
`none` if `c` is not a digit of that base. -/
def digVal (base : Nat) (c : Char) : Option Nat :=
  let v : Option Nat :=
    if '0' ≤ c ∧ c ≤ '9' then some (c.toNat - 48)
    else if 'a' ≤ c ∧ c ≤ 'z' then some (c.toNat - 87)
    else if 'A' ≤ c ∧ c ≤ 'Z' then some (c.toNat - 55)
    else none
  match v with
  | some d => if d < base then some d else none
  | none => none

/-- Longest prefix of digits of `base`, with the rest of the string. -/
def takeDigits (base : Nat) : List Char → List Nat × List Char
  | [] => ([], [])
  | c :: rest =>
    match digVal base c with
    | some d =>
      let p := takeDigits base rest
      (d :: p.1, p.2)
    | none => ([], c :: rest)

/-- Outcome of C `strtoll`: the returned value, the position of `endptr`
(as the remaining characters), whether any conversion was performed
(`endptr != nptr`), and whether `errno` was set to `ERANGE`. -/
structure Strtoll where
  value : Int
  rest : List Char
  consumed : Bool
  rangeErr : Bool
deriving DecidableEq

def LLONG_MAX : Int := 2 ^ 63 - 1

def LLONG_MIN : Int := -(2 ^ 63)

/-- Convert the scanned digit string, applying the sign, clamping to the
`long long` range with the `ERANGE` flag, as `strtoll` does.  `orig` is
the full original string (returned as `rest` when no digit was found,
because then `endptr = nptr`). -/
def strtollFinish (neg : Bool) (base : Nat) (cs orig : List Char) : Strtoll :=
  let p := takeDigits base cs
  if p.1.isEmpty then { value := 0, rest := orig, consumed := false, rangeErr := false }
  else
    let mag : Int := (p.1.foldl (fun a d => a * base + d) 0 : Nat)
    let v : Int := if neg then -mag else mag
    if v > LLONG_MAX then { value := LLONG_MAX, rest := p.2, consumed := true, rangeErr := true }
    else if v < LLONG_MIN then { value := LLONG_MIN, rest := p.2, consumed := true, rangeErr := true }
    else { value := v, rest := p.2, consumed := true, rangeErr := false }

/-- Does the list start with a hex digit?  (Decides whether a `0x` prefix
belongs to a hex number or only the leading `0` is consumed.) -/
def startsHexDigit : List Char → Bool
  | [] => false
  | c :: _ => (digVal 16 c).isSome

/-- C `strtoll(nptr, &endptr, 0)`: skip whitespace, read an optional sign,
then interpret a `0x`/`0X` prefix as hex, a leading `0` as octal and
anything else as decimal (C17 7.22.1.4; the base-0 subject sequence of a
`0x` with no following hex digit is just the `0`). -/
def strtoll0 (cs : List Char) : Strtoll :=
  let afterWs := cs.dropWhile isSpaceCh
  let neg : Bool := afterWs.head? = some '-'
  let afterSign : List Char :=
    if afterWs.head? = some '-' || afterWs.head? = some '+' then afterWs.tail else afterWs
  if afterSign.head? = some '0' then
    if afterSign.tail.head? = some 'x' || afterSign.tail.head? = some 'X' then
      if startsHexDigit afterSign.tail.tail then strtollFinish neg 16 afterSign.tail.tail cs
      else { value := 0, rest := afterSign.tail, consumed := true, rangeErr := false }
    else strtollFinish neg 8 afterSign cs
  else strtollFinish neg 10 afterSign cs

/-! ### CUDA memory shim (src/hook.c) -/

/-- CUDA driver API result codes relevant to the hooks. -/
inductive CUresult where
  | CUDA_SUCCESS
  | CUDA_ERROR_OUT_OF_MEMORY
  | CUDA_ERROR_NOT_INITIALIZED
  | errCode (n : Nat)
deriving DecidableEq

/-- The reserve `MEMINFO_RESERVE_MIB MiB = 1536 * 2 ^ 20` bytes (hook.c, lines 45, 740). -/
def MEMINFO_RESERVE_BYTES : Nat := 1536 * 2 ^ 20

/-- Result of the hooked `cuMemGetInfo` (hook.c, lines 698-746): the values
stored into `*free` and `*total`.  `realFree` and `realTotal` are whatever
the real driver wrote; the hook then overwrites `*free` with
`*total - reserve` in `size_t` arithmetic, ignoring the driver's free
value entirely. -/
structure MemInfoOut where
  free : Nat
  total : Nat
deriving DecidableEq

def cuMemGetInfo_model (realFree realTotal : Nat) : MemInfoOut :=
  { free := usub64 realTotal MEMINFO_RESERVE_BYTES, total := realTotal }

/-- C6: on every (successful) `cuMemGetInfo`, the returned free value is
the returned total minus the fixed 1536 MiB reserve in 64-bit unsigned
arithmetic, no matter what free value the real driver reported. -/
theorem c6_meminfo_reserve (realFree realTotal : Nat) (h : realTotal < 2 ^ 64) :
    (cuMemGetInfo_model realFree realTotal).total = realTotal
    ∧ ((cuMemGetInfo_model realFree realTotal).free + MEMINFO_RESERVE_BYTES) % 2 ^ 64
        = realTotal % 2 ^ 64
    ∧ (MEMINFO_RESERVE_BYTES ≤ realTotal →
        (cuMemGetInfo_model realFree realTotal).free = realTotal - MEMINFO_RESERVE_BYTES)
    ∧ (∀ otherFree, cuMemGetInfo_model realFree realTotal
        = cuMemGetInfo_model otherFree realTotal) := by
  refine ⟨rfl, ?_, ?_, fun _ => rfl⟩
  · show (usub64 realTotal MEMINFO_RESERVE_BYTES + MEMINFO_RESERVE_BYTES) % 2 ^ 64
      = realTotal % 2 ^ 64
    unfold usub64 U64
    have hr : MEMINFO_RESERVE_BYTES % 2 ^ 64 = MEMINFO_RESERVE_BYTES := by
      unfold MEMINFO_RESERVE_BYTES
      norm_num
    rw [hr]
    conv_lhs => rw [Nat.mod_add_mod]
    have : realTotal + 2 ^ 64 - MEMINFO_RESERVE_BYTES + MEMINFO_RESERVE_BYTES
        = realTotal + 2 ^ 64 := by
      have : MEMINFO_RESERVE_BYTES ≤ 2 ^ 64 := by unfold MEMINFO_RESERVE_BYTES; norm_num
      omega
    rw [this, Nat.add_mod_right]
  · intro hle
    show usub64 realTotal MEMINFO_RESERVE_BYTES = realTotal - MEMINFO_RESERVE_BYTES
    unfold usub64 U64
    have hr : MEMINFO_RESERVE_BYTES % 2 ^ 64 = MEMINFO_RESERVE_BYTES := by
      unfold MEMINFO_RESERVE_BYTES
      norm_num
    rw [hr]
    have h1 : realTotal + 2 ^ 64 - MEMINFO_RESERVE_BYTES
        = (realTotal - MEMINFO_RESERVE_BYTES) + 2 ^ 64 := by omega
    rw [h1, Nat.add_mod_right, Nat.mod_eq_of_lt (by omega)]

/-- C6 witness at a concrete total (8 GiB). -/
theorem c6_meminfo_reserve_witness :
    (8589934592 : Nat) < 2 ^ 64
    ∧ ((cuMemGetInfo_model 123 8589934592).total = 8589934592
      ∧ ((cuMemGetInfo_model 123 8589934592).free + MEMINFO_RESERVE_BYTES) % 2 ^ 64
          = 8589934592 % 2 ^ 64
      ∧ (MEMINFO_RESERVE_BYTES ≤ 8589934592 →
          (cuMemGetInfo_model 123 8589934592).free = 8589934592 - MEMINFO_RESERVE_BYTES)
      ∧ (∀ otherFree, cuMemGetInfo_model 123 8589934592
          = cuMemGetInfo_model otherFree 8589934592)) :=
  ⟨by norm_num, c6_meminfo_reserve 123 8589934592 (by norm_num)⟩

/-- Per-process memory accounting state of the hook library (hook.c,
globals at lines 77-95 plus the `got_max_mem_size` static of `cuMemAlloc`). -/
structure HookState where
  got_max_mem_size : Bool
  nvshare_size_mem_allocatable : Nat
  sum_allocated : Nat
  cuda_allocation_list : List (Nat × Nat)
  enable_single_oversub : Bool
deriving DecidableEq

/-- Model of `insert_cuda_allocation` (hook.c, lines 273-288): adds `bytesize` to the
tracked sum (`size_t` arithmetic) and appends a `{ptr, size}` node. -/
def insert_cuda_allocation (st : HookState) (dptr bytesize : Nat) : HookState :=
  { st with
    sum_allocated := (st.sum_allocated + bytesize) % U64,
    cuda_allocation_list := st.cuda_allocation_list ++ [(dptr, bytesize)] }

/-- The hooked `cuMemAlloc` (hook.c, lines 646-682).  `realTotal` is the
total the driver would report on the first-call `cuMemGetInfo`;
`managedRes`/`managedPtr` are the outcome of `real_cuMemAllocManaged`. -/
def cuMemAlloc_model (st : HookState) (bytesize realTotal : Nat)
    (managedRes : CUresult) (managedPtr : Nat) : CUresult × HookState :=
  let st1 := if st.got_max_mem_size then st
    else { st with
      got_max_mem_size := true,
      nvshare_size_mem_allocatable := (cuMemGetInfo_model 0 realTotal).free }
  if (st1.sum_allocated + bytesize) % U64 > st1.nvshare_size_mem_allocatable
      && !st1.enable_single_oversub then
    (.CUDA_ERROR_OUT_OF_MEMORY, st1)
  else if managedRes = .CUDA_SUCCESS then
    (managedRes, insert_cuda_allocation st1 managedPtr bytesize)
  else (managedRes, st1)

/-- The allocatable limit that `cuMemAlloc` checks against: the cached one,
or on the first call the freshly cached `total - reserve`. -/
def effectiveLimit (st : HookState) (realTotal : Nat) : Nat :=
  if st.got_max_mem_size then st.nvshare_size_mem_allocatable
  else (cuMemGetInfo_model 0 realTotal).free

/-- C5: a `cuMemAlloc` request is refused with `OUT_OF_MEMORY` — leaving the
allocation list and the tracked sum untouched — exactly when the tracked sum
plus the request exceeds the cached allocatable limit and single-process
oversubscription is off; otherwise it is forwarded to the managed allocator,
and exactly on success a `{ptr, size}` entry is appended and the tracked
sum grows by `bytesize` (in `size_t` arithmetic). -/
theorem c5_cuMemAlloc_contract (st : HookState) (bytesize realTotal : Nat)
    (managedRes : CUresult) (managedPtr : Nat) :
    ((st.sum_allocated + bytesize) % U64 > effectiveLimit st realTotal
        ∧ st.enable_single_oversub = false →
      (cuMemAlloc_model st bytesize realTotal managedRes managedPtr).1
          = .CUDA_ERROR_OUT_OF_MEMORY
      ∧ (cuMemAlloc_model st bytesize realTotal managedRes managedPtr).2.cuda_allocation_list
          = st.cuda_allocation_list
      ∧ (cuMemAlloc_model st bytesize realTotal managedRes managedPtr).2.sum_allocated
          = st.sum_allocated)
    ∧ (¬((st.sum_allocated + bytesize) % U64 > effectiveLimit st realTotal
          ∧ st.enable_single_oversub = false) →
      (cuMemAlloc_model st bytesize realTotal managedRes managedPtr).1 = managedRes
      ∧ (managedRes = .CUDA_SUCCESS →
          (cuMemAlloc_model st bytesize realTotal managedRes managedPtr).2.cuda_allocation_list
            = st.cuda_allocation_list ++ [(managedPtr, bytesize)]
          ∧ (cuMemAlloc_model st bytesize realTotal managedRes managedPtr).2.sum_allocated
            = (st.sum_allocated + bytesize) % U64)
      ∧ (managedRes ≠ .CUDA_SUCCESS →
          (cuMemAlloc_model st bytesize realTotal managedRes managedPtr).2.cuda_allocation_list
            = st.cuda_allocation_list
          ∧ (cuMemAlloc_model st bytesize realTotal managedRes managedPtr).2.sum_allocated
            = st.sum_allocated)) := by
  have hsum1 : (if st.got_max_mem_size then st
      else { st with
        got_max_mem_size := true,
        nvshare_size_mem_allocatable := (cuMemGetInfo_model 0 realTotal).free }).sum_allocated
      = st.sum_allocated := by
    by_cases hg : st.got_max_mem_size <;> simp [hg]
  have hlist1 : (if st.got_max_mem_size then st
      else { st with
        got_max_mem_size := true,
        nvshare_size_mem_allocatable := (cuMemGetInfo_model 0 realTotal).free }).cuda_allocation_list
      = st.cuda_allocation_list := by
    by_cases hg : st.got_max_mem_size <;> simp [hg]
  have hlim1 : (if st.got_max_mem_size then st
      else { st with
        got_max_mem_size := true,
        nvshare_size_mem_allocatable := (cuMemGetInfo_model 0 realTotal).free }).nvshare_size_mem_allocatable
      = effectiveLimit st realTotal := by
    by_cases hg : st.got_max_mem_size <;> simp [effectiveLimit, hg]
  have hov1 : (if st.got_max_mem_size then st
      else { st with
        got_max_mem_size := true,
        nvshare_size_mem_allocatable := (cuMemGetInfo_model 0 realTotal).free }).enable_single_oversub
      = st.enable_single_oversub := by
    by_cases hg : st.got_max_mem_size <;> simp [hg]
  constructor
  · rintro ⟨hgt, hosub⟩
    unfold cuMemAlloc_model
    rw [if_pos]
    · exact ⟨rfl, hlist1, hsum1⟩
    · rw [hsum1, hlim1, hov1, hosub]
      simp [hgt]
  · intro hneg
    unfold cuMemAlloc_model
    rw [if_neg]
    · by_cases hm : managedRes = CUresult.CUDA_SUCCESS
      · rw [if_pos hm]
        refine ⟨rfl, fun _ => ⟨?_, ?_⟩, fun hc => absurd hm hc⟩
        · simp [insert_cuda_allocation, hlist1]
        · simp [insert_cuda_allocation, hsum1]
      · rw [if_neg hm]
        exact ⟨rfl, fun hc => absurd hc hm, fun _ => ⟨hlist1, hsum1⟩⟩
    · rw [hsum1, hlim1, hov1]
      intro hb
      simp only [Bool.and_eq_true, decide_eq_true_eq, Bool.not_eq_eq_eq_not,
        Bool.not_true] at hb
      rcases hb with ⟨h1, h2⟩
      rcases hb2 : st.enable_single_oversub with _ | _
      · exact hneg ⟨h1, by simp_all⟩
      · simp [hb2] at h2

/-- C5 witness: with a cached limit of 100 bytes, 90 already allocated and
oversubscription off, a 20-byte request is refused with `OUT_OF_MEMORY`. -/
theorem c5_cuMemAlloc_contract_witness :
    ((90 + 20) % U64 > effectiveLimit
        ⟨true, 100, 90, [], false⟩ 0
      ∧ (⟨true, 100, 90, [], false⟩ : HookState).enable_single_oversub = false)
    ∧ (cuMemAlloc_model ⟨true, 100, 90, [], false⟩ 20 0 .CUDA_SUCCESS 7).1
        = .CUDA_ERROR_OUT_OF_MEMORY :=
  ⟨⟨by decide, rfl⟩,
   ((c5_cuMemAlloc_contract ⟨true, 100, 90, [], false⟩ 20 0 .CUDA_SUCCESS 7).1
      ⟨by decide, rfl⟩).1⟩

/-! ### Kernel submission rate controller (src/hook.c, cuLaunchKernel) -/

def KERN_SYNC_WINDOW_MAX : Nat := 2048

def KERN_SYNC_DURATION_BIG : Nat := 10

def KERN_SYNC_WINDOW_STEPDOWN_THRESH : Nat := 1

/-- The rate controller counters guarded by `kcount_mutex`
(hook.c, lines 80-81): `kern_since_sync` and `pending_kernel_window`. -/
structure RateState where
  kern_since_sync : Nat
  pending_kernel_window : Nat
deriving DecidableEq

/-- The counter update performed by the hooked `cuLaunchKernel`
(hook.c, lines 802-836): increment `kern_since_sync`; when it reaches the
window, time a context synchronize (its duration in whole seconds is
`syncSec`, the `tv_sec` field of the measured timespec) and resize the
window, then zero the counter. -/
def launch_rate_update (st : RateState) (syncSec : Nat) : RateState :=
  let k := st.kern_since_sync + 1
  if k ≥ st.pending_kernel_window then
    { kern_since_sync := 0,
      pending_kernel_window :=
        if syncSec ≥ KERN_SYNC_DURATION_BIG then 1
        else if syncSec ≥ KERN_SYNC_WINDOW_STEPDOWN_THRESH then
          max (st.pending_kernel_window / 2) 1
        else min (st.pending_kernel_window * 2) KERN_SYNC_WINDOW_MAX }
  else { st with kern_since_sync := k }

/-- The helper `cuda_sync_context` (client.c, lines 59-67) resets the window to 1
before synchronizing. -/
def cuda_sync_context_rate (st : RateState) : RateState :=
  { st with pending_kernel_window := 1 }

/-- One observable action on the rate controller state: a gated kernel
launch (with the measured sync duration) or a `cuda_sync_context` call. -/
inductive RStep : RateState → RateState → Prop
  | launch (st : RateState) (syncSec : Nat) : RStep st (launch_rate_update st syncSec)
  | ctxSync (st : RateState) : RStep st (cuda_sync_context_rate st)

/-- Rate controller states reachable from the initial
`kern_since_sync = 0`, `pending_kernel_window = 1` (hook.c, lines 80-81). -/
inductive RReach : RateState → Prop
  | init : RReach ⟨0, 1⟩
  | step {st st' : RateState} : RReach st → RStep st st' → RReach st'

/-- Preservation of the window bounds by a single rate controller step. -/
theorem rstep_preserves_window_bounds {a b : RateState} (hs : RStep a b)
    (ih : 1 ≤ a.pending_kernel_window ∧ a.pending_kernel_window ≤ 2048) :
    1 ≤ b.pending_kernel_window ∧ b.pending_kernel_window ≤ 2048 := by
  cases hs with
  | launch syncSec =>
    simp only [launch_rate_update, KERN_SYNC_WINDOW_MAX]
    split_ifs <;> simp_all <;> omega
  | ctxSync => simp [cuda_sync_context_rate]

/-- C7: across every launch-triggered window update (grow to at most 2048,
halve but never below 1, or hard reset to 1 after a ≥ 10 s sync) and across
the reset done by `cuda_sync_context`, the pending-kernel window always
stays within `[1, 2048]`. -/
theorem c7_pending_window_bounds (st : RateState) (h : RReach st) :
    1 ≤ st.pending_kernel_window ∧ st.pending_kernel_window ≤ 2048 := by
  induction h with
  | init => exact ⟨le_refl 1, by norm_num⟩
  | step hr hs ih => exact rstep_preserves_window_bounds hs ih

/-- C7 witness: the invariant evaluated at the initial state. -/
theorem c7_pending_window_bounds_witness :
    1 ≤ (⟨0, 1⟩ : RateState).pending_kernel_window
    ∧ (⟨0, 1⟩ : RateState).pending_kernel_window ≤ 2048 :=
  c7_pending_window_bounds ⟨0, 1⟩ RReach.init

/-! ### nvsharectl CLI (src/cli.c) -/

/-- Command line options after `xopt_parse` (cli.c, struct SimpleConfig):
`cmdline_scheduler_tq` stays 0 when `-T` was not given. -/
structure CliConfig where
  cmdline_scheduler_tq : Int
  cmdline_anti_thrash : Option (List Char)
  help : Bool

def onChars : List Char := ['o', 'n']

def offChars : List Char := ['o', 'f', 'f']

/-- Model of `change_status` (cli.c, lines 96-114): `none` when `nvshare_connect`
fails (the `true_or_exit` makes `log_fatal` terminate the process with
exit code 1); otherwise `some 0` on a full send and `some (-1)` when
`write_whole` falls short. -/
def change_status_model (connectOk sendOk : Bool) : Option Int :=
  if connectOk then some (if sendOk then 0 else -1) else none

/-- Model of `change_tq` (cli.c, lines 74-93): `none` when `nvshare_connect` fails
(`log_fatal`, exit 1); otherwise `some 0` or `some (-1)` as for
`change_status`.  The send outcome is only reported with `log_info`. -/
def change_tq_model (connectOk sendOk : Bool) : Option Int :=
  if connectOk then some (if sendOk then 0 else -1) else none

/-- The tail of `main` after the actions: print help and `exit(0)` when
`--help` was given or no action ran, otherwise `return 0`
(cli.c, lines 175-185). -/
def cli_help_phase (cfg : CliConfig) (actions : Nat) : Nat :=
  if cfg.help ∨ actions = 0 then 0 else 0

/-- The `-T` block of `main` (cli.c, lines 160-172): skipped entirely when
the parsed value is 0; `log_fatal` (exit 1) when it is negative;
otherwise run `change_tq` and log its outcome. -/
def cli_tq_phase (cfg : CliConfig) (connectT sendT : Bool) (actions : Nat) : Nat :=
  if cfg.cmdline_scheduler_tq ≠ 0 then
    if cfg.cmdline_scheduler_tq ≤ 0 then 1
    else
      match change_tq_model connectT sendT with
      | none => 1
      | some _ => cli_help_phase cfg (actions + 1)
  else cli_help_phase cfg actions

/-- Model of `main` of nvsharectl (cli.c, lines 117-186), returning the process
exit code.  `parse_err` covers `xopt_context`/`xopt_parse` failures
(`log_fatal`, exit 1); `connectS`/`sendS` and `connectT`/`sendT` are the
outcomes of the connect and send of the `-S` and `-T` actions. -/
def cli_main (parse_err : Bool) (cfg : CliConfig)
    (connectS sendS connectT sendT : Bool) : Nat :=
  if parse_err then 1
  else
    match cfg.cmdline_anti_thrash with
    | some v =>
      if v = onChars ∨ v = offChars then
        match change_status_model connectS sendS with
        | none => 1
        | some _ => cli_tq_phase cfg connectT sendT 1
      else 1
    | none => cli_tq_phase cfg connectT sendT 0

/-- The situations in which the `-S` action terminates the CLI via
`log_fatal`: an invalid argument, or a failed connect. -/
def cliStatusFatal (cfg : CliConfig) (connectS : Bool) : Prop :=
  ∃ v, cfg.cmdline_anti_thrash = some v
    ∧ (¬(v = onChars ∨ v = offChars) ∨ connectS = false)

/-- The situations in which the `-T` action terminates the CLI via
`log_fatal`: a negative value, or a failed connect.  A value of 0 is
silently skipped (the action block is guarded by `tq != 0`). -/
def cliTqFatal (cfg : CliConfig) (connectT : Bool) : Prop :=
  cfg.cmdline_scheduler_tq < 0
  ∨ (0 < cfg.cmdline_scheduler_tq ∧ connectT = false)

theorem cli_help_phase_eq (cfg : CliConfig) (actions : Nat) :
    cli_help_phase cfg actions = 0 := by
  unfold cli_help_phase
  split_ifs <;> rfl

/-- Counterexample to C9: with `-S on` parsed successfully, a successful
connect and a failed send of the control message, `main` merely logs the
failure and exits 0, while the claim demands a nonzero exit code whenever
the send of the single control message fails. -/
theorem c9_counterexample :
    cli_main false ⟨0, some onChars, false⟩ true false true true = 0 := by
  rfl

theorem cli_tq_phase_spec (cfg : CliConfig) (cT sT : Bool) (actions : Nat) :
    (cli_tq_phase cfg cT sT actions = 0 ∨ cli_tq_phase cfg cT sT actions = 1)
    ∧ (cli_tq_phase cfg cT sT actions = 1 ↔ cliTqFatal cfg cT) := by
  unfold cli_tq_phase cliTqFatal change_tq_model
  have htri : cfg.cmdline_scheduler_tq < 0 ∨ cfg.cmdline_scheduler_tq = 0
      ∨ 0 < cfg.cmdline_scheduler_tq := by omega
  rcases htri with h | h | h
  · have h0 : cfg.cmdline_scheduler_tq ≠ 0 := by omega
    have hle : cfg.cmdline_scheduler_tq ≤ 0 := by omega
    simp [h0, hle, h]
  · simp [h, cli_help_phase_eq]
  · have h0 : cfg.cmdline_scheduler_tq ≠ 0 := by omega
    have hnle : ¬ cfg.cmdline_scheduler_tq ≤ 0 := by omega
    have hneg : ¬ cfg.cmdline_scheduler_tq < 0 := by omega
    cases cT
    · simp [h0, hnle, h]
    · simp [h0, hnle, hneg, cli_help_phase_eq]

/-- C9 (amended): nvsharectl exits 0 on success or help — including when a
`-T 0` option is silently skipped and when the send of a control message
fails, which is only logged — and exits 1 exactly on an option-parse
error, an invalid `-S` argument, a negative `-T` value, or a failed
connect for either action. -/
theorem c9_cli_exit_codes (parse_err : Bool) (cfg : CliConfig)
    (connectS sendS connectT sendT : Bool) :
    (cli_main parse_err cfg connectS sendS connectT sendT = 0
      ∨ cli_main parse_err cfg connectS sendS connectT sendT = 1)
    ∧ (cli_main parse_err cfg connectS sendS connectT sendT = 1
        ↔ parse_err = true ∨ cliStatusFatal cfg connectS ∨ cliTqFatal cfg connectT) := by
  cases hp : parse_err
  case true => simp [cli_main]
  case false =>
    rcases hat : cfg.cmdline_anti_thrash with _ | v
    · have hsf : ¬ cliStatusFatal cfg connectS := by
        rintro ⟨w, hw, -⟩
        rw [hat] at hw
        cases hw
      have hT := cli_tq_phase_spec cfg connectT sendT 0
      simp only [cli_main, hat, Bool.false_eq_true, if_false]
      refine ⟨hT.1, ?_⟩
      rw [hT.2]
      simp [hsf]
    · by_cases hv : v = onChars ∨ v = offChars
      · cases hcS : connectS
        · have hsf : cliStatusFatal cfg false := ⟨v, hat, Or.inr rfl⟩
          simp [cli_main, hat, hv, change_status_model, hsf]
        · have hsf : ¬ cliStatusFatal cfg true := by
            rintro ⟨w, hw, hbad⟩
            rw [hat] at hw
            injection hw with hw
            subst hw
            rcases hbad with hbad | hbad
            · exact hbad hv
            · cases hbad
          have hT := cli_tq_phase_spec cfg connectT sendT 1
          have hred : cli_main false cfg true sendS connectT sendT
              = cli_tq_phase cfg connectT sendT 1 := by
            simp [cli_main, hat, hv, change_status_model]
          rw [hred]
          refine ⟨hT.1, ?_⟩
          rw [hT.2]
          simp [hsf]
      · have hsf : cliStatusFatal cfg connectS := ⟨v, hat, Or.inl hv⟩
        simp [cli_main, hat, hv, hsf]

/-- C9 witness: a run with `-S on`, both connects fine and `-T 5`
succeeding exits 0 (and concretely neither fatal condition holds). -/
theorem c9_cli_exit_codes_witness :
    (cli_main false ⟨5, some onChars, false⟩ true true true true = 0
      ∨ cli_main false ⟨5, some onChars, false⟩ true true true true = 1)
    ∧ (cli_main false ⟨5, some onChars, false⟩ true true true true = 1
        ↔ false = true ∨ cliStatusFatal ⟨5, some onChars, false⟩ true
          ∨ cliTqFatal ⟨5, some onChars, false⟩ true) :=
  c9_cli_exit_codes false ⟨5, some onChars, false⟩ true true true true

/-! ### Client gate and background worker (src/client.c) -/

/-- The per-process client gate state (client.c, globals at lines 50-54),
with two ghost counters used to express the outstanding-REQ_LOCK claims:
`reqs_since_lock_ok` counts REQ_LOCK sends since the worker last processed
a LOCK_OK; `reqs_since_clear` counts REQ_LOCK sends since `need_lock` was
last cleared (by LOCK_OK or by a scheduler status change). -/
structure ClientState where
  scheduler_on : Bool
  own_lock : Bool
  need_lock : Bool
  did_work : Bool
  reqs_since_lock_ok : Nat
  reqs_since_clear : Nat
deriving DecidableEq

/-- The send executed inside `continue_with_lock`'s wait loop (client.c,
lines 93-96): only possible while `own_lock == 0` and `need_lock == 0`;
it sets `need_lock` and writes a REQ_LOCK frame. -/
def gate_send (s : ClientState) : ClientState :=
  { s with
    need_lock := true,
    reqs_since_lock_ok := s.reqs_since_lock_ok + 1,
    reqs_since_clear := s.reqs_since_clear + 1 }

/-- The exit of `continue_with_lock` once `own_lock == 1`
(client.c, lines 101-103): `did_work = 1` and `release_early_cv` is
broadcast. -/
def gate_finish (s : ClientState) : ClientState :=
  { s with did_work := true }

/-- Worker handling of LOCK_OK (client.c, lines 297-306). -/
def worker_lock_ok (s : ClientState) : ClientState :=
  { s with
    need_lock := false,
    own_lock := true,
    did_work := true,
    reqs_since_lock_ok := 0,
    reqs_since_clear := 0 }

/-- Worker handling of DROP_LOCK (client.c, lines 307-318): only acts when
the lock is held; drops it, synchronizes and sends LOCK_RELEASED. -/
def worker_drop_lock (s : ClientState) : ClientState :=
  if s.own_lock then { s with own_lock := false } else s

/-- Worker handling of SCHED_ON (client.c, lines 319-329): when the
scheduler was off, turn it on and clear both flags (`need_lock` is
cleared, so the ghost `reqs_since_clear` resets). -/
def worker_sched_on (s : ClientState) : ClientState :=
  if s.scheduler_on then s
  else { s with
    scheduler_on := true,
    need_lock := false,
    own_lock := false,
    reqs_since_clear := 0 }

/-- Worker handling of SCHED_OFF (client.c, lines 330-340): when the
scheduler was on, turn it off, grant the lock locally and clear
`need_lock` (the ghost `reqs_since_clear` resets). -/
def worker_sched_off (s : ClientState) : ClientState :=
  if s.scheduler_on then
    { s with
      scheduler_on := false,
      own_lock := true,
      need_lock := false,
      reqs_since_clear := 0 }
  else s

/-- The early releaser resetting `did_work` at the top of its loop
(client.c, line 396). -/
def releaser_tick (s : ClientState) : ClientState :=
  { s with did_work := false }

/-- The early releaser sending LOCK_RELEASED after both idleness probes
pass (client.c, lines 471-475): requires the scheduler on, the lock held
and no work since the last interval. -/
def releaser_release (s : ClientState) : ClientState :=
  { s with own_lock := false }

/-- One mutex-protected transition of the client gate state.  Application
threads run `send`/`finish` (inside `continue_with_lock`), the background
worker runs the `msg*` steps, the early releaser runs the last two. -/
inductive CStep : ClientState → ClientState → Prop
  | send {s : ClientState} (h1 : s.own_lock = false) (h2 : s.need_lock = false) :
      CStep s (gate_send s)
  | finish {s : ClientState} (h : s.own_lock = true) : CStep s (gate_finish s)
  | msgLockOk {s : ClientState} : CStep s (worker_lock_ok s)
  | msgDropLock {s : ClientState} : CStep s (worker_drop_lock s)
  | msgSchedOn {s : ClientState} : CStep s (worker_sched_on s)
  | msgSchedOff {s : ClientState} : CStep s (worker_sched_off s)
  | releaserTick {s : ClientState} : CStep s (releaser_tick s)
  | releaserRelease {s : ClientState} (h1 : s.scheduler_on = true)
      (h2 : s.own_lock = true) (h3 : s.did_work = false) :
      CStep s (releaser_release s)

/-- Client state right after boot when the REGISTER reply was SCHED_ON
(client.c, lines 258-267). -/
def clientInitOn : ClientState :=
  ⟨true, false, false, false, 0, 0⟩

/-- Client state right after boot when the REGISTER reply was SCHED_OFF
(client.c, lines 269-279). -/
def clientInitOff : ClientState :=
  ⟨false, true, false, false, 0, 0⟩

/-- Client gate states reachable from either boot state. -/
inductive CReach : ClientState → Prop
  | initOn : CReach clientInitOn
  | initOff : CReach clientInitOff
  | step {s s' : ClientState} : CReach s → CStep s s' → CReach s'

/-- Counterexample to C2: a REQ_LOCK is sent, then the worker processes a
SCHED_OFF and a SCHED_ON broadcast from the daemon — both clear
`need_lock` without any LOCK_OK being processed — and a second gated
thread sends another REQ_LOCK.  The reachable state has two REQ_LOCK
sends with no intervening LOCK_OK processing, contradicting the claim
that no further REQ_LOCK is sent until the worker processes LOCK_OK. -/
theorem c2_counterexample :
    CReach (gate_send (worker_sched_on (worker_sched_off (gate_send clientInitOn))))
    ∧ (gate_send (worker_sched_on (worker_sched_off
        (gate_send clientInitOn)))).reqs_since_lock_ok = 2 := by
  constructor
  · exact CReach.step
      (CReach.step
        (CReach.step
          (CReach.step CReach.initOn (CStep.send rfl rfl))
          CStep.msgSchedOff)
        CStep.msgSchedOn)
      (CStep.send rfl rfl)
  · rfl

/-- C2 (amended): per client process, at most one REQ_LOCK is outstanding
between any setting of `need_lock` and the next event that clears it —
which is the worker processing LOCK_OK, or a scheduler status change
(SCHED_OFF while on, SCHED_ON while off).  No thread sends REQ_LOCK while
`need_lock` is set: in every reachable gate state the number of REQ_LOCK
sends since `need_lock` was last cleared is 1 when `need_lock` is set and
0 otherwise. -/
theorem c2_single_outstanding_req_lock (s : ClientState) (h : CReach s) :
    s.reqs_since_clear ≤ 1
    ∧ s.reqs_since_clear = (if s.need_lock then 1 else 0) := by
  induction h with
  | initOn => exact ⟨by norm_num [clientInitOn], by norm_num [clientInitOn]⟩
  | initOff => exact ⟨by norm_num [clientInitOff], by norm_num [clientInitOff]⟩
  | step hr hs ih =>
    rcases ih with ⟨ih1, ih2⟩
    cases hs with
    | send h1 h2 =>
      rw [h2] at ih2
      simp only [if_false, Bool.false_eq_true] at ih2
      simp [gate_send, ih2]
    | finish h => exact ⟨ih1, ih2⟩
    | msgLockOk => simp [worker_lock_ok]
    | msgDropLock =>
      rename_i s
      unfold worker_drop_lock
      by_cases ho : s.own_lock = true
      · rw [if_pos ho]
        exact ⟨ih1, ih2⟩
      · rw [if_neg ho]
        exact ⟨ih1, ih2⟩
    | msgSchedOn =>
      rename_i s
      unfold worker_sched_on
      by_cases ho : s.scheduler_on = true
      · rw [if_pos ho]
        exact ⟨ih1, ih2⟩
      · rw [if_neg ho]
        simp
    | msgSchedOff =>
      rename_i s
      unfold worker_sched_off
      by_cases ho : s.scheduler_on = true
      · rw [if_pos ho]
        simp
      · rw [if_neg ho]
        exact ⟨ih1, ih2⟩
    | releaserTick => exact ⟨ih1, ih2⟩
    | releaserRelease h1 h2 h3 => exact ⟨ih1, ih2⟩

/-- C2 witness: the invariant evaluated at the boot state (scheduler on). -/
theorem c2_single_outstanding_req_lock_witness :
    clientInitOn.reqs_since_clear ≤ 1
    ∧ clientInitOn.reqs_since_clear = (if clientInitOn.need_lock then 1 else 0) :=
  c2_single_outstanding_req_lock clientInitOn CReach.initOn

/-! ### Scheduler daemon (src/scheduler.c) -/

/-- Wire message types (comm.h, enum message_type).  `other` stands for
any byte value outside the defined range (the daemon ignores them). -/
inductive MsgType where
  | REGISTER
  | SCHED_ON
  | SCHED_OFF
  | REQ_LOCK
  | LOCK_OK
  | DROP_LOCK
  | LOCK_RELEASED
  | SET_TQ
  | other (n : Nat)
deriving DecidableEq

/-- A wire message (comm.h, struct message).  The pod fields and `data`
are the C strings held in the fixed-size buffers. -/
structure Message where
  type : MsgType
  pod_name : List Char
  pod_namespace : List Char
  id : Nat
  data : List Char
deriving DecidableEq

def POD_NAME_LEN_MAX : Nat := 254

def POD_NAMESPACE_LEN_MAX : Nat := 254

def NVSHARE_UNREGISTERED_ID : Nat := 0xF00DF00DF00DF00D

/-- One daemon-side client record (scheduler.c, struct nvshare_client). -/
structure NvClient where
  fd : Nat
  id : Nat
  pod_name : List Char
  pod_namespace : List Char
deriving DecidableEq

/-- The daemon's global state (scheduler.c, globals at lines 38-70).
`requests` holds the fds of the queued clients in FCFS order.  Two ghost
fields record facts the C code keeps implicit: `holder` is the client most
recently granted the lock (`none` once `lock_held` is cleared), and
`sent` logs every successfully sent message as a `(destination fd,
message)` pair. -/
structure DaemonState where
  clients : List NvClient
  requests : List Nat
  lock_held : Bool
  scheduler_on : Bool
  tq : Int
  must_reset_timer : Bool
  scheduling_round : Nat
  holder : Option Nat
  sent : List (Nat × Message)
deriving DecidableEq

/-- The initial daemon state after `main`'s setup (scheduler.c,
lines 550-552): scheduler on, default TQ of 30, nothing connected. -/
def daemonInit : DaemonState :=
  { clients := [], requests := [], lock_held := false, scheduler_on := true,
    tq := 30, must_reset_timer := false, scheduling_round := 0,
    holder := none, sent := [] }

/-- Append a successfully sent message to the ghost log. -/
def logSend (s : DaemonState) (fd : Nat) (m : Message) : DaemonState :=
  { s with sent := s.sent ++ [(fd, m)] }

/-- The global `out_msg` has `id = 7331` (scheduler.c, line 591) and its
`data` is zeroed outside `register_client`; `try_schedule` sends it with
type LOCK_OK (line 304). -/
def lockOkMsg : Message :=
  { type := .LOCK_OK, pod_name := [], pod_namespace := [], id := 7331, data := [] }

/-- Both `bcast_status` and `register_client` reuse `out_msg` with the type
reflecting the current scheduler status (lines 197 and 215). -/
def statusMsg (schedOn : Bool) : Message :=
  { type := if schedOn then .SCHED_ON else .SCHED_OFF,
    pod_name := [], pod_namespace := [], id := 7331, data := [] }

/-- The timer thread's `t_msg`: type DROP_LOCK, `id = 1337`
("Nobody checks this", scheduler.c, lines 337-338). -/
def dropLockMsg : Message :=
  { type := .DROP_LOCK, pod_name := [], pod_namespace := [], id := 1337, data := [] }

/-- The REGISTER reply (scheduler.c, lines 196-198): `out_msg` with the
current status as type and the 16 lowercase hex digits of the new id in
`data`. -/
def registerReply (schedOn : Bool) (newId : Nat) : Message :=
  { type := if schedOn then .SCHED_ON else .SCHED_OFF,
    pod_name := [], pod_namespace := [], id := 7331, data := toHexDigits 16 newId }

/-- Model of `remove_req` (scheduler.c, lines 139-155): if the head of the request
queue belongs to this fd the client held the lock, so clear `lock_held`
(and the ghost holder); then unlink every request with this fd. -/
def remove_req (s : DaemonState) (fd : Nat) : DaemonState :=
  let s1 :=
    match s.requests with
    | [] => s
    | hfd :: _ => if hfd = fd then { s with lock_held := false, holder := none } else s
  { s1 with requests := s1.requests.filter (fun r => r ≠ fd) }

/-- Model of `delete_client` (scheduler.c, lines 98-121): drop any request of the
client, then unlink it from the client table and close its fd. -/
def delete_client (s : DaemonState) (fd : Nat) : DaemonState :=
  let s1 := remove_req s fd
  { s1 with clients := s1.clients.filter (fun c => c.fd ≠ fd) }

/-- Model of `insert_req` (scheduler.c, lines 123-137): drop the request if the
client already has one queued (dedup by fd), otherwise append. -/
def insert_req (s : DaemonState) (fd : Nat) : DaemonState :=
  if fd ∈ s.requests then s
  else { s with requests := s.requests ++ [fd] }

/-- The loop body of `try_schedule` (scheduler.c, lines 295-316), with an
explicit iteration bound: send LOCK_OK to the head of the queue; on send
failure delete that client (which unlinks at least the head request) and
retry.  `sendOk` tells which fds accept a send.  The fuel is always
called with `s.requests.length`, which bounds the iterations because
every failed send removes the head request. -/
def try_schedule_go (sendOk : Nat → Bool) : Nat → DaemonState → DaemonState
  | 0, s => s
  | fuel + 1, s =>
    match s.requests with
    | [] => s
    | fd :: _ =>
      if sendOk fd then
        { s with
          sent := s.sent ++ [(fd, lockOkMsg)],
          scheduling_round := (s.scheduling_round + 1) % 2 ^ 32,
          lock_held := true,
          must_reset_timer := true,
          holder := some fd }
      else try_schedule_go sendOk fuel (delete_client s fd)

/-- Model of `try_schedule` (scheduler.c, lines 295-316). -/
def try_schedule (sendOk : Nat → Bool) (s : DaemonState) : DaemonState :=
  try_schedule_go sendOk s.requests.length s

/-- The loop body of `bcast_status` (scheduler.c, lines 209-219), iterating
over a snapshot of the client list (`LL_FOREACH_SAFE`): skip unregistered
clients, send the current status, delete a client whose send fails. -/
def bcast_go (sendOk : Nat → Bool) : List NvClient → DaemonState → DaemonState
  | [], s => s
  | c :: rest, s =>
    if c.id = NVSHARE_UNREGISTERED_ID then bcast_go sendOk rest s
    else if sendOk c.fd then
      bcast_go sendOk rest (logSend s c.fd (statusMsg s.scheduler_on))
    else bcast_go sendOk rest (delete_client s c.fd)

/-- Model of `bcast_status` (scheduler.c, lines 209-219). -/
def bcast_status (sendOk : Nat → Bool) (s : DaemonState) : DaemonState :=
  bcast_go sendOk s.clients s

/-- Model of `register_client` (scheduler.c, lines 159-206) followed by the caller's
cleanup in `process_msg` (line 406): an already-registered sender is
deleted; otherwise the client record receives the fresh id and the
`strlcpy`-truncated pod fields, then the reply is sent, and the client is
deleted on send failure.  `newId` stands for the value produced by the
`nvshare_generate_id` retry loop. -/
def register_step (sendOk : Nat → Bool) (newId : Nat) (s : DaemonState)
    (c : NvClient) (m : Message) : DaemonState :=
  if c.id ≠ NVSHARE_UNREGISTERED_ID then delete_client s c.fd
  else
    let s1 := { s with
      clients := s.clients.map (fun d =>
        if d.fd = c.fd then
          { d with
            id := newId,
            pod_name := (strlcpy_model m.pod_name POD_NAME_LEN_MAX).1.dropLast,
            pod_namespace :=
              (strlcpy_model m.pod_namespace POD_NAMESPACE_LEN_MAX).1.dropLast }
        else d) }
    if sendOk c.fd then logSend s1 c.fd (registerReply s1.scheduler_on newId)
    else delete_client s1 c.fd

/-- Model of `process_msg` (scheduler.c, lines 393-501): dispatch of one received
message from the connection of client `c`. -/
def process_msg (sendOk : Nat → Bool) (newId : Nat) (s : DaemonState)
    (c : NvClient) (m : Message) : DaemonState :=
  match m.type with
  | .REGISTER => register_step sendOk newId s c m
  | .SCHED_ON =>
    if s.scheduler_on then s
    else bcast_status sendOk { s with scheduler_on := true }
  | .SCHED_OFF =>
    if s.scheduler_on then
      let s2 := bcast_status sendOk { s with scheduler_on := false }
      { s2 with requests := [], lock_held := false, holder := none }
    else s
  | .SET_TQ =>
    let r := strtoll0 m.data
    if r.consumed && r.rest.isEmpty && !r.rangeErr then
      { s with tq := toInt32 r.value, must_reset_timer := true }
    else s
  | .REQ_LOCK =>
    if c.id ≠ NVSHARE_UNREGISTERED_ID then
      if s.scheduler_on then
        let s1 := insert_req s c.fd
        if s1.lock_held then s1 else try_schedule sendOk s1
      else s
    else delete_client s c.fd
  | .LOCK_RELEASED =>
    if c.id ≠ NVSHARE_UNREGISTERED_ID then
      if s.scheduler_on then
        let s1 := remove_req s c.fd
        if s1.lock_held then s1 else try_schedule sendOk s1
      else s
    else delete_client s c.fd
  | .LOCK_OK => s
  | .DROP_LOCK => s
  | .other _ => s

/-- A successful `accept` in the event loop (scheduler.c, lines 610-637):
a fresh client record with the sentinel id joins the table. -/
def accept_client (s : DaemonState) (fd : Nat) : DaemonState :=
  { s with clients := s.clients
      ++ [{ fd := fd, id := NVSHARE_UNREGISTERED_ID, pod_name := [], pod_namespace := [] }] }

/-- Eviction of a dead peer in the event loop (scheduler.c,
lines 647-650 and 659-663): delete the client and, if afterwards the lock
is free and the scheduler on, try to schedule. -/
def evict_step (sendOk : Nat → Bool) (s : DaemonState) (fd : Nat) : DaemonState :=
  let s1 := delete_client s fd
  if !s1.lock_held && s1.scheduler_on then try_schedule sendOk s1 else s1

/-- The timer thread's quantum-expiry action (scheduler.c, lines 349-377):
with the lock held (and `drop_lock_sent` unset, the round unchanged) it
sends DROP_LOCK to the head of the request queue; on failure it deletes
that client and reschedules.  The `[]` branch is unreachable while the
C1 invariant holds (the C code dereferences `requests->client` there). -/
def timer_expire (sendOk : Nat → Bool) (s : DaemonState) : DaemonState :=
  if s.lock_held then
    match s.requests with
    | [] => s
    | fd :: _ =>
      if sendOk fd then logSend s fd dropLockMsg
      else try_schedule sendOk (delete_client s fd)
  else s

/-- One atomic daemon operation, all performed with `global_mutex` held:
a new connection, the dispatch of one received message, the eviction of a
dead peer, or a time-quantum expiry.  `sendOk` resolves the outcome of
each send attempted during the operation; `newId` is the (fresh,
non-sentinel) id generated for a REGISTER. -/
inductive DStep : DaemonState → DaemonState → Prop
  | accept {s : DaemonState} (fd : Nat) : DStep s (accept_client s fd)
  | dispatch {s : DaemonState} (sendOk : Nat → Bool) (newId : Nat)
      (c : NvClient) (m : Message) (hc : c ∈ s.clients)
      (hid : newId ≠ NVSHARE_UNREGISTERED_ID)
      (hfresh : ∀ d ∈ s.clients, d.id ≠ newId) :
      DStep s (process_msg sendOk newId s c m)
  | evict {s : DaemonState} (sendOk : Nat → Bool) (c : NvClient)
      (hc : c ∈ s.clients) : DStep s (evict_step sendOk s c.fd)
  | timer {s : DaemonState} (sendOk : Nat → Bool) :
      DStep s (timer_expire sendOk s)

/-- Daemon states reachable from start. -/
inductive DReach : DaemonState → Prop
  | init : DReach daemonInit
  | step {s s' : DaemonState} : DReach s → DStep s s' → DReach s'

/-- The C1 invariant: whenever the lock is held, the request queue is
non-empty and the ghost holder is exactly its head (so at most one client
— that head — holds the GPU lock). -/
def lockInv (s : DaemonState) : Prop :=
  s.lock_held = true → ∃ fd tl, s.requests = fd :: tl ∧ s.holder = some fd

theorem lockInv_remove_req (s : DaemonState) (fd : Nat) (h : lockInv s) :
    lockInv (remove_req s fd) := by
  unfold remove_req
  split
  next heq =>
    intro hl
    rcases h hl with ⟨a, tl, ha, _⟩
    rw [heq] at ha
    cases ha
  next hfd tl heq =>
    split
    next he =>
      intro hl
      exact absurd hl (by simp)
    next he =>
      intro hl
      rcases h hl with ⟨a, tl', ha, hh⟩
      rw [heq] at ha
      injection ha with ha1 ha2
      subst ha1
      subst ha2
      have hfil : s.requests.filter (fun r => decide (r ≠ fd))
          = hfd :: tl.filter (fun r => decide (r ≠ fd)) := by
        rw [heq]
        simp [List.filter_cons, he]
      exact ⟨hfd, tl.filter (fun r => decide (r ≠ fd)), hfil, hh⟩

theorem lockInv_delete_client (s : DaemonState) (fd : Nat) (h : lockInv s) :
    lockInv (delete_client s fd) := by
  have h1 := lockInv_remove_req s fd h
  intro hl
  exact h1 hl

theorem lockInv_try_schedule_go (sendOk : Nat → Bool) :
    ∀ fuel s, lockInv s → lockInv (try_schedule_go sendOk fuel s) := by
  intro fuel
  induction fuel with
  | zero => intro s h; exact h
  | succ fuel ih =>
    intro s h
    unfold try_schedule_go
    split
    next heq => exact h
    next fd tl heq =>
      split
      next hs =>
        intro _
        exact ⟨fd, tl, heq, rfl⟩
      next hs =>
        exact ih _ (lockInv_delete_client s fd h)

theorem lockInv_try_schedule (sendOk : Nat → Bool) (s : DaemonState) (h : lockInv s) :
    lockInv (try_schedule sendOk s) :=
  lockInv_try_schedule_go sendOk _ s h

theorem lockInv_bcast_go (sendOk : Nat → Bool) :
    ∀ l s, lockInv s → lockInv (bcast_go sendOk l s) := by
  intro l
  induction l with
  | nil => intro s h; exact h
  | cons c rest ih =>
    intro s h
    unfold bcast_go
    split
    · exact ih s h
    · split
      · exact ih _ (fun hl => h hl)
      · exact ih _ (lockInv_delete_client s c.fd h)

theorem lockInv_bcast_status (sendOk : Nat → Bool) (s : DaemonState) (h : lockInv s) :
    lockInv (bcast_status sendOk s) :=
  lockInv_bcast_go sendOk s.clients s h

theorem lockInv_insert_req (s : DaemonState) (fd : Nat) (h : lockInv s) :
    lockInv (insert_req s fd) := by
  unfold insert_req
  split
  · exact h
  · intro hl
    rcases h hl with ⟨a, tl, ha, hh⟩
    refine ⟨a, tl ++ [fd], ?_, hh⟩
    show s.requests ++ [fd] = a :: (tl ++ [fd])
    rw [ha]
    rfl

theorem lockInv_register_step (sendOk : Nat → Bool) (newId : Nat) (s : DaemonState)
    (c : NvClient) (m : Message) (h : lockInv s) :
    lockInv (register_step sendOk newId s c m) := by
  unfold register_step
  split
  · exact lockInv_delete_client s c.fd h
  · split
    · intro hl
      exact h hl
    · exact lockInv_delete_client _ c.fd (fun hl => h hl)

theorem lockInv_process_msg (sendOk : Nat → Bool) (newId : Nat) (s : DaemonState)
    (c : NvClient) (m : Message) (h : lockInv s) :
    lockInv (process_msg sendOk newId s c m) := by
  unfold process_msg
  split
  · exact lockInv_register_step sendOk newId s c m h
  · split
    · exact h
    · exact lockInv_bcast_status sendOk _ (fun hl => h hl)
  · split
    · intro hl
      exact absurd hl (by simp)
    · exact h
  · dsimp only
    split
    · intro hl
      exact h hl
    · exact h
  · split
    · split
      · dsimp only
        split
        · exact lockInv_insert_req s c.fd h
        · exact lockInv_try_schedule sendOk _ (lockInv_insert_req s c.fd h)
      · exact h
    · exact lockInv_delete_client s c.fd h
  · split
    · split
      · dsimp only
        split
        · exact lockInv_remove_req s c.fd h
        · exact lockInv_try_schedule sendOk _ (lockInv_remove_req s c.fd h)
      · exact h
    · exact lockInv_delete_client s c.fd h
  · exact h
  · exact h
  · exact h

theorem lockInv_accept (s : DaemonState) (fd : Nat) (h : lockInv s) :
    lockInv (accept_client s fd) := by
  intro hl
  exact h hl

theorem lockInv_evict_step (sendOk : Nat → Bool) (s : DaemonState) (fd : Nat)
    (h : lockInv s) : lockInv (evict_step sendOk s fd) := by
  unfold evict_step
  dsimp only
  split
  · exact lockInv_try_schedule sendOk _ (lockInv_delete_client s fd h)
  · exact lockInv_delete_client s fd h

theorem lockInv_timer_expire (sendOk : Nat → Bool) (s : DaemonState)
    (h : lockInv s) : lockInv (timer_expire sendOk s) := by
  unfold timer_expire
  split
  next hl =>
    split
    next heq => exact h
    next fd tl heq =>
      split
      next hs =>
        intro hl2
        rcases h hl with ⟨a, tl2, ha, hh⟩
        exact ⟨a, tl2, ha, hh⟩
      next hs =>
        exact lockInv_try_schedule sendOk _ (lockInv_delete_client s fd h)
  next hl => exact h

theorem lockInv_dstep {s s' : DaemonState} (hs : DStep s s') (h : lockInv s) :
    lockInv s' := by
  cases hs with
  | accept fd => exact lockInv_accept s fd h
  | dispatch sendOk newId c m hc hid hfresh => exact lockInv_process_msg sendOk newId s c m h
  | evict sendOk c hc => exact lockInv_evict_step sendOk s c.fd h
  | timer sendOk => exact lockInv_timer_expire sendOk s h

/-- C1: in every reachable daemon state, if `lock_held` is set then the
request queue is non-empty and the current lock holder is exactly its
head; the invariant is preserved by accept, message dispatch, client
eviction and timer expiry (every constructor of `DStep`), so at most one
client — the queue head — holds the GPU lock at any time. -/
theorem c1_lock_holder_invariant (s : DaemonState) (h : DReach s) : lockInv s := by
  induction h with
  | init => intro hl; exact absurd hl (by simp [daemonInit])
  | step hr hstep ih => exact lockInv_dstep hstep ih

/-- C1 witness: the invariant evaluated at the initial daemon state. -/
theorem c1_lock_holder_invariant_witness : lockInv daemonInit :=
  c1_lock_holder_invariant daemonInit DReach.init

theorem remove_req_fields (s : DaemonState) (fd : Nat) :
    (remove_req s fd).scheduler_on = s.scheduler_on
    ∧ (remove_req s fd).sent = s.sent
    ∧ (remove_req s fd).clients = s.clients := by
  unfold remove_req
  split
  · exact ⟨rfl, rfl, rfl⟩
  · split <;> exact ⟨rfl, rfl, rfl⟩

theorem delete_client_scheduler_on (s : DaemonState) (fd : Nat) :
    (delete_client s fd).scheduler_on = s.scheduler_on :=
  (remove_req_fields s fd).1

theorem delete_client_sent (s : DaemonState) (fd : Nat) :
    (delete_client s fd).sent = s.sent :=
  (remove_req_fields s fd).2.1

theorem delete_client_mem_clients {d : NvClient} (s : DaemonState) (fd : Nat)
    (hd : d ∈ (delete_client s fd).clients) : d ∈ s.clients ∧ d.fd ≠ fd := by
  unfold delete_client at hd
  dsimp only at hd
  rw [(remove_req_fields s fd).2.2] at hd
  have hm := List.mem_filter.mp hd
  exact ⟨hm.1, by simpa using hm.2⟩

theorem bcast_go_scheduler_on (sendOk : Nat → Bool) :
    ∀ l s, (bcast_go sendOk l s).scheduler_on = s.scheduler_on := by
  intro l
  induction l with
  | nil => intro s; rfl
  | cons c0 rest ih =>
    intro s
    unfold bcast_go
    split
    · exact ih s
    · split
      · exact ih _
      · rw [ih _, delete_client_scheduler_on]

theorem bcast_go_sent_mono (sendOk : Nat → Bool) {e : Nat × Message} :
    ∀ l s, e ∈ s.sent → e ∈ (bcast_go sendOk l s).sent := by
  intro l
  induction l with
  | nil => intro s h; exact h
  | cons c0 rest ih =>
    intro s h
    unfold bcast_go
    split
    · exact ih s h
    · split
      · exact ih _ (List.mem_append_left _ h)
      · exact ih _ (by rw [delete_client_sent]; exact h)

theorem bcast_go_clients_sub (sendOk : Nat → Bool) {d : NvClient} :
    ∀ l s, d ∈ (bcast_go sendOk l s).clients → d ∈ s.clients := by
  intro l
  induction l with
  | nil => intro s h; exact h
  | cons c0 rest ih =>
    intro s h
    unfold bcast_go at h
    by_cases h1 : c0.id = NVSHARE_UNREGISTERED_ID
    · rw [if_pos h1] at h
      exact ih s h
    · rw [if_neg h1] at h
      by_cases h2 : sendOk c0.fd = true
      · rw [if_pos h2] at h
        exact ih (logSend s c0.fd (statusMsg s.scheduler_on)) h
      · rw [if_neg h2] at h
        exact (delete_client_mem_clients s c0.fd (ih (delete_client s c0.fd) h)).1

theorem bcast_go_spec (sendOk : Nat → Bool) :
    ∀ l s, ∀ c ∈ l, c.id ≠ NVSHARE_UNREGISTERED_ID →
      (sendOk c.fd = true →
        (c.fd, statusMsg s.scheduler_on) ∈ (bcast_go sendOk l s).sent)
      ∧ (sendOk c.fd = false →
        ∀ d ∈ (bcast_go sendOk l s).clients, d.fd ≠ c.fd) := by
  intro l
  induction l with
  | nil =>
    intro s c hc
    cases hc
  | cons c0 rest ih =>
    intro s c hc hreg
    rcases List.mem_cons.mp hc with hc0 | hcr
    · subst hc0
      unfold bcast_go
      rw [if_neg hreg]
      constructor
      · intro hsend
        rw [if_pos hsend]
        apply bcast_go_sent_mono
        exact List.mem_append_right _ (by simp)
      · intro hsend
        rw [if_neg (by rw [hsend]; exact Bool.false_ne_true)]
        intro d hd
        exact (delete_client_mem_clients s c.fd (bcast_go_clients_sub sendOk rest _ hd)).2
    · unfold bcast_go
      split
      · exact ih s c hcr hreg
      · split
        · exact ih _ c hcr hreg
        · have := ih (delete_client s c0.fd) c hcr hreg
          rw [delete_client_scheduler_on] at this
          exact this

/-- C3: processing a SCHED_OFF control message while the scheduler is on
empties the request queue, clears `lock_held`, turns the scheduler off,
and a SCHED_OFF frame is sent to every registered client (a client whose
send fails is evicted instead); a SCHED_OFF received while the scheduler
is already off leaves the daemon state completely unchanged. -/
theorem c3_sched_off_contract (sendOk : Nat → Bool) (newId : Nat) (s : DaemonState)
    (c : NvClient) (m : Message) (hm : m.type = .SCHED_OFF) :
    (s.scheduler_on = true →
      (process_msg sendOk newId s c m).requests = []
      ∧ (process_msg sendOk newId s c m).lock_held = false
      ∧ (process_msg sendOk newId s c m).scheduler_on = false
      ∧ ∀ d ∈ s.clients, d.id ≠ NVSHARE_UNREGISTERED_ID →
          (sendOk d.fd = true →
            (d.fd, statusMsg false) ∈ (process_msg sendOk newId s c m).sent)
          ∧ (sendOk d.fd = false →
            ∀ e ∈ (process_msg sendOk newId s c m).clients, e.fd ≠ d.fd))
    ∧ (s.scheduler_on = false → process_msg sendOk newId s c m = s) := by
  obtain ⟨t, pn, pns, mid, dat⟩ := m
  simp only [Message.type] at hm
  subst hm
  simp only [process_msg]
  constructor
  · intro hon
    rw [if_pos hon]
    dsimp only
    refine ⟨rfl, rfl, ?_, ?_⟩
    · show (bcast_status sendOk { s with scheduler_on := false }).scheduler_on = false
      unfold bcast_status
      rw [bcast_go_scheduler_on]
    · intro d hd hreg
      exact bcast_go_spec sendOk s.clients { s with scheduler_on := false } d hd hreg
  · intro hoff
    rw [if_neg (by rw [hoff]; exact Bool.false_ne_true)]

/-- C3 witness: a daemon with one registered client (fd 5, all sends
succeeding) processing SCHED_OFF from a CLI connection (fd 9). -/
theorem c3_sched_off_contract_witness :
    ((⟨[⟨5, 600, [], []⟩], [5], true, true, 30, false, 1, some 5, []⟩ :
        DaemonState).scheduler_on = true →
      (process_msg (fun _ => true) 0
          ⟨[⟨5, 600, [], []⟩], [5], true, true, 30, false, 1, some 5, []⟩
          ⟨9, NVSHARE_UNREGISTERED_ID, [], []⟩
          ⟨.SCHED_OFF, [], [], 48879, []⟩).requests = []
      ∧ (process_msg (fun _ => true) 0
          ⟨[⟨5, 600, [], []⟩], [5], true, true, 30, false, 1, some 5, []⟩
          ⟨9, NVSHARE_UNREGISTERED_ID, [], []⟩
          ⟨.SCHED_OFF, [], [], 48879, []⟩).lock_held = false
      ∧ (process_msg (fun _ => true) 0
          ⟨[⟨5, 600, [], []⟩], [5], true, true, 30, false, 1, some 5, []⟩
          ⟨9, NVSHARE_UNREGISTERED_ID, [], []⟩
          ⟨.SCHED_OFF, [], [], 48879, []⟩).scheduler_on = false
      ∧ ∀ d ∈ (⟨[⟨5, 600, [], []⟩], [5], true, true, 30, false, 1, some 5, []⟩ :
            DaemonState).clients, d.id ≠ NVSHARE_UNREGISTERED_ID →
          ((fun (_ : Nat) => true) d.fd = true →
            (d.fd, statusMsg false) ∈ (process_msg (fun _ => true) 0
              ⟨[⟨5, 600, [], []⟩], [5], true, true, 30, false, 1, some 5, []⟩
              ⟨9, NVSHARE_UNREGISTERED_ID, [], []⟩
              ⟨.SCHED_OFF, [], [], 48879, []⟩).sent)
          ∧ ((fun (_ : Nat) => true) d.fd = false →
            ∀ e ∈ (process_msg (fun _ => true) 0
              ⟨[⟨5, 600, [], []⟩], [5], true, true, 30, false, 1, some 5, []⟩
              ⟨9, NVSHARE_UNREGISTERED_ID, [], []⟩
              ⟨.SCHED_OFF, [], [], 48879, []⟩).clients, e.fd ≠ d.fd))
    ∧ ((⟨[⟨5, 600, [], []⟩], [5], true, true, 30, false, 1, some 5, []⟩ :
        DaemonState).scheduler_on = false →
      process_msg (fun _ => true) 0
        ⟨[⟨5, 600, [], []⟩], [5], true, true, 30, false, 1, some 5, []⟩
        ⟨9, NVSHARE_UNREGISTERED_ID, [], []⟩
        ⟨.SCHED_OFF, [], [], 48879, []⟩
      = ⟨[⟨5, 600, [], []⟩], [5], true, true, 30, false, 1, some 5, []⟩) :=
  c3_sched_off_contract (fun _ => true) 0
    ⟨[⟨5, 600, [], []⟩], [5], true, true, 30, false, 1, some 5, []⟩
    ⟨9, NVSHARE_UNREGISTERED_ID, [], []⟩
    ⟨.SCHED_OFF, [], [], 48879, []⟩ rfl

/-! ### SET_TQ parsing (C4) -/

/-- Claim-side: `c` is a decimal digit. -/
def isDecDigit (c : Char) : Bool := decide ('0' ≤ c) && decide (c ≤ '9')

/-- Claim-side: the number denoted by an unsigned decimal digit string. -/
def decValue (ds : List Char) : Nat :=
  ds.foldl (fun a c => a * 10 + (c.toNat - 48)) 0

theorem toNat_of_decDigit {c : Char} (h : isDecDigit c = true) :
    48 ≤ c.toNat ∧ c.toNat ≤ 57 := by
  simp only [isDecDigit, Bool.and_eq_true, decide_eq_true_eq] at h
  rcases h with ⟨h1, h2⟩
  rw [Char.le_def] at h1 h2
  exact ⟨h1, h2⟩

theorem isSpaceCh_of_decDigit {c : Char} (h : isDecDigit c = true) :
    isSpaceCh c = false := by
  rcases toNat_of_decDigit h with ⟨h1, h2⟩
  unfold isSpaceCh
  simp only [Bool.or_eq_false_iff, decide_eq_false_iff_not]
  refine ⟨⟨⟨⟨⟨?_, ?_⟩, ?_⟩, ?_⟩, ?_⟩, ?_⟩ <;>
    · rintro rfl
      exact absurd h1 (by decide)

theorem decDigit_ne_minus {c : Char} (h : isDecDigit c = true) : c ≠ '-' := by
  rcases toNat_of_decDigit h with ⟨h1, _⟩
  rintro rfl
  exact absurd h1 (by decide)

theorem decDigit_ne_plus {c : Char} (h : isDecDigit c = true) : c ≠ '+' := by
  rcases toNat_of_decDigit h with ⟨h1, _⟩
  rintro rfl
  exact absurd h1 (by decide)

theorem digVal10_of_decDigit {c : Char} (h : isDecDigit c = true) :
    digVal 10 c = some (c.toNat - 48) := by
  have h1 : '0' ≤ c ∧ c ≤ '9' := by
    simp only [isDecDigit, Bool.and_eq_true, decide_eq_true_eq] at h
    exact h
  rcases toNat_of_decDigit h with ⟨_, hub⟩
  unfold digVal
  rw [if_pos h1]
  show (if c.toNat - 48 < 10 then some (c.toNat - 48) else none) = some (c.toNat - 48)
  rw [if_pos (by omega)]

theorem takeDigits10_of_digits :
    ∀ ds : List Char, ds.all isDecDigit = true →
      takeDigits 10 ds = (ds.map (fun c => c.toNat - 48), []) := by
  intro ds
  induction ds with
  | nil => intro _; rfl
  | cons c rest ih =>
    intro h
    rw [List.all_cons, Bool.and_eq_true] at h
    unfold takeDigits
    rw [digVal10_of_decDigit h.1, ih h.2]
    rfl

theorem decValue_eq_fold (ds : List Char) :
    (ds.map (fun c => c.toNat - 48)).foldl (fun a d => a * 10 + d) 0 = decValue ds := by
  simp [decValue, List.foldl_map]

theorem strtollFinish_digits (neg : Bool) (d : Char) (ds : List Char) (orig : List Char)
    (hall : (d :: ds).all isDecDigit = true)
    (hmax : (decValue (d :: ds) : Int) ≤ LLONG_MAX) :
    strtollFinish neg 10 (d :: ds) orig
      = ⟨if neg then -(decValue (d :: ds) : Int) else (decValue (d :: ds) : Int),
         [], true, false⟩ := by
  unfold strtollFinish
  rw [takeDigits10_of_digits _ hall]
  dsimp only
  rw [if_neg (by simp)]
  have hmag : (((d :: ds).map (fun c => c.toNat - 48)).foldl
      (fun a dg => a * 10 + dg) 0 : Nat) = decValue (d :: ds) :=
    decValue_eq_fold (d :: ds)
  rw [hmag]
  have hnn : (0 : Int) ≤ (decValue (d :: ds) : Int) := Int.ofNat_nonneg _
  have hminlt : LLONG_MIN < 0 := by unfold LLONG_MIN; omega
  have hmaxnn : (0 : Int) ≤ LLONG_MAX := by unfold LLONG_MAX; omega
  cases neg
  · simp only [Bool.false_eq_true, if_false]
    rw [if_neg (by omega), if_neg (by omega)]
  · simp only [if_true]
    rw [if_neg (by omega), if_neg (by unfold LLONG_MIN LLONG_MAX at *; omega)]

theorem dropWhile_digits (d : Char) (ds : List Char) (hd : isDecDigit d = true) :
    (d :: ds).dropWhile isSpaceCh = d :: ds := by
  rw [List.dropWhile_cons, isSpaceCh_of_decDigit hd]
  simp

/-- Evaluation of `strtoll0` on an unsigned decimal numeral without a misleading leading
zero: it returns exactly the decimal value, consuming the whole string. -/
theorem strtoll0_decimal (d : Char) (ds : List Char)
    (hall : (d :: ds).all isDecDigit = true)
    (hlead : d ≠ '0' ∨ ds = [])
    (hmax : (decValue (d :: ds) : Int) ≤ LLONG_MAX) :
    strtoll0 (d :: ds) = ⟨(decValue (d :: ds) : Int), [], true, false⟩ := by
  have hd : isDecDigit d = true := by
    rw [List.all_cons, Bool.and_eq_true] at hall
    exact hall.1
  by_cases hd0 : d = '0'
  · have hds : ds = [] := by
      rcases hlead with h | h
      · exact absurd hd0 h
      · exact h
    subst hd0
    subst hds
    decide
  · unfold strtoll0
    dsimp only
    rw [dropWhile_digits d ds hd]
    have hb1 : decide ((d :: ds).head? = some '-') = false := by
      rw [decide_eq_false_iff_not]
      simp only [List.head?_cons, Option.some.injEq]
      exact decDigit_ne_minus hd
    have hb2 : decide ((d :: ds).head? = some '+') = false := by
      rw [decide_eq_false_iff_not]
      simp only [List.head?_cons, Option.some.injEq]
      exact decDigit_ne_plus hd
    rw [hb1, hb2]
    simp only [Bool.or_self, Bool.false_eq_true, if_false]
    rw [if_neg (show ¬((d :: ds).head? = some '0') by
      simp only [List.head?_cons, Option.some.injEq]
      exact hd0)]
    have := strtollFinish_digits false d ds (d :: ds) hall hmax
    simpa using this

/-- Evaluation of `strtoll0` on a `+`-signed decimal numeral. -/
theorem strtoll0_decimal_plus (d : Char) (ds : List Char)
    (hall : (d :: ds).all isDecDigit = true)
    (hlead : d ≠ '0' ∨ ds = [])
    (hmax : (decValue (d :: ds) : Int) ≤ LLONG_MAX) :
    strtoll0 ('+' :: d :: ds) = ⟨(decValue (d :: ds) : Int), [], true, false⟩ := by
  have hd : isDecDigit d = true := by
    rw [List.all_cons, Bool.and_eq_true] at hall
    exact hall.1
  unfold strtoll0
  dsimp only
  have hW : ('+' :: d :: ds).dropWhile isSpaceCh = '+' :: d :: ds := by
    rw [List.dropWhile_cons, if_neg (by decide)]
  rw [hW]
  have hb1 : decide (('+' :: d :: ds).head? = some '-') = false := by
    rw [decide_eq_false_iff_not]
    intro hcontra
    simp only [List.head?_cons, Option.some.injEq] at hcontra
    exact absurd hcontra (by decide)
  have hb2 : decide (('+' :: d :: ds).head? = some '+') = true := by
    simp
  rw [hb1, hb2]
  simp only [Bool.false_or, if_true, List.tail_cons]
  by_cases hd0 : d = '0'
  · have hds : ds = [] := by
      rcases hlead with h | h
      · exact absurd hd0 h
      · exact h
    subst hd0
    subst hds
    decide
  · rw [if_neg (show ¬((d :: ds).head? = some '0') by
      simp only [List.head?_cons, Option.some.injEq]
      exact hd0)]
    have := strtollFinish_digits false d ds ('+' :: d :: ds) hall hmax
    simpa using this

/-- Evaluation of `strtoll0` on a `-`-signed decimal numeral. -/
theorem strtoll0_decimal_minus (d : Char) (ds : List Char)
    (hall : (d :: ds).all isDecDigit = true)
    (hlead : d ≠ '0' ∨ ds = [])
    (hmax : (decValue (d :: ds) : Int) ≤ LLONG_MAX) :
    strtoll0 ('-' :: d :: ds) = ⟨-(decValue (d :: ds) : Int), [], true, false⟩ := by
  have hd : isDecDigit d = true := by
    rw [List.all_cons, Bool.and_eq_true] at hall
    exact hall.1
  unfold strtoll0
  dsimp only
  have hW : ('-' :: d :: ds).dropWhile isSpaceCh = '-' :: d :: ds := by
    rw [List.dropWhile_cons, if_neg (by decide)]
  rw [hW]
  have hb1 : decide (('-' :: d :: ds).head? = some '-') = true := by
    simp
  rw [hb1]
  simp only [Bool.true_or, if_true, List.tail_cons]
  by_cases hd0 : d = '0'
  · have hds : ds = [] := by
      rcases hlead with h | h
      · exact absurd hd0 h
      · exact h
    subst hd0
    subst hds
    decide
  · rw [if_neg (show ¬((d :: ds).head? = some '0') by
      simp only [List.head?_cons, Option.some.injEq]
      exact hd0)]
    have := strtollFinish_digits true d ds ('-' :: d :: ds) hall hmax
    simpa using this

/-- C4 (amended): for a SET_TQ message whose data is an optional sign
followed by decimal digits — without a leading zero, which strtoll base 0
reads as octal — whose value fits in `long long`, the daemon sets the
quantum to that value truncated to the C `int` range and sets
`must_reset_timer` (broadcasting `timer_cv`); when the data does not parse
as a complete in-range integer, `quantum` and `must_reset_timer` are left
unchanged. -/
theorem c4_set_tq_contract (sendOk : Nat → Bool) (newId : Nat) (s : DaemonState)
    (c : NvClient) (m : Message) (hm : m.type = .SET_TQ) :
    (∀ (sgn : Int) (d : Char) (ds : List Char),
      (d :: ds).all isDecDigit = true →
      (d ≠ '0' ∨ ds = []) →
      (decValue (d :: ds) : Int) ≤ 2 ^ 63 - 1 →
      (m.data = d :: ds ∧ sgn = 1
        ∨ m.data = '+' :: d :: ds ∧ sgn = 1
        ∨ m.data = '-' :: d :: ds ∧ sgn = -1) →
      (process_msg sendOk newId s c m).tq = toInt32 (sgn * (decValue (d :: ds) : Int))
      ∧ (process_msg sendOk newId s c m).must_reset_timer = true)
    ∧ (((strtoll0 m.data).consumed && (strtoll0 m.data).rest.isEmpty
          && !(strtoll0 m.data).rangeErr) = false →
      (process_msg sendOk newId s c m).tq = s.tq
      ∧ (process_msg sendOk newId s c m).must_reset_timer = s.must_reset_timer) := by
  obtain ⟨t, pn, pns, mid, dat⟩ := m
  simp only [Message.type] at hm
  subst hm
  simp only [process_msg, Message.data]
  have hLL : ((2 : Int) ^ 63 - 1) = LLONG_MAX := by unfold LLONG_MAX; norm_num
  have hcond : ∀ v : Int,
      ((⟨v, [], true, false⟩ : Strtoll).consumed
        && (⟨v, [], true, false⟩ : Strtoll).rest.isEmpty
        && !(⟨v, [], true, false⟩ : Strtoll).rangeErr) = true := fun _ => rfl
  constructor
  · rintro sgn d ds hall hlead hmax (⟨hdat, hsgn⟩ | ⟨hdat, hsgn⟩ | ⟨hdat, hsgn⟩) <;>
      subst hdat <;> subst hsgn
    · rw [strtoll0_decimal d ds hall hlead (hLL ▸ hmax)]
      rw [if_pos (hcond _)]
      refine ⟨?_, rfl⟩
      simp only [one_mul, neg_one_mul]
    · rw [strtoll0_decimal_plus d ds hall hlead (hLL ▸ hmax)]
      rw [if_pos (hcond _)]
      refine ⟨?_, rfl⟩
      simp only [one_mul, neg_one_mul]
    · rw [strtoll0_decimal_minus d ds hall hlead (hLL ▸ hmax)]
      rw [if_pos (hcond _)]
      refine ⟨?_, rfl⟩
      simp only [one_mul, neg_one_mul]
  · intro hfail
    rw [if_neg (by rw [hfail]; exact Bool.false_ne_true)]
    exact ⟨rfl, rfl⟩

/-- Counterexample to C4: the daemon parses the SET_TQ data with
`strtoll(..., 0)`, so the well-formed decimal string "010" (value ten) is
read as octal and the quantum becomes 8, not 10.  (A second divergence,
not needed for the refutation: values at or above `2 ^ 31` are truncated
by the `(int)` cast.) -/
theorem c4_counterexample :
    (['0', '1', '0'].all isDecDigit = true ∧ decValue ['0', '1', '0'] = 10)
    ∧ (process_msg (fun _ => true) 0 daemonInit ⟨9, NVSHARE_UNREGISTERED_ID, [], []⟩
        ⟨.SET_TQ, [], [], 48879, ['0', '1', '0']⟩).tq = 8
    ∧ (8 : Int) ≠ 10 := by
  refine ⟨⟨by decide, by decide⟩, ?_, by decide⟩
  decide

/-- C4 witness: SET_TQ with data "30" sets the quantum to 30 and flags the
timer reset. -/
theorem c4_set_tq_contract_witness :
    (process_msg (fun _ => true) 0 daemonInit ⟨9, NVSHARE_UNREGISTERED_ID, [], []⟩
        ⟨.SET_TQ, [], [], 48879, ['3', '0']⟩).tq
      = toInt32 (1 * (decValue ['3', '0'] : Int))
    ∧ (process_msg (fun _ => true) 0 daemonInit ⟨9, NVSHARE_UNREGISTERED_ID, [], []⟩
        ⟨.SET_TQ, [], [], 48879, ['3', '0']⟩).must_reset_timer = true :=
  (c4_set_tq_contract (fun _ => true) 0 daemonInit ⟨9, NVSHARE_UNREGISTERED_ID, [], []⟩
      ⟨.SET_TQ, [], [], 48879, ['3', '0']⟩ rfl).1 1 '3' ['0']
    (by decide) (Or.inl (by decide)) (by decide) (Or.inl ⟨rfl, rfl⟩)

/-! ### REGISTER reply id vs later message ids (C8) -/

/-- Every message the daemon has successfully sent carries one of the two
fixed placeholder ids: 7331 (`out_msg`, scheduler.c line 591) or 1337
(the timer's `t_msg`, line 337). -/
def sentIdsOk (s : DaemonState) : Prop :=
  ∀ e ∈ s.sent, e.2.id = 7331 ∨ e.2.id = 1337

theorem sentIdsOk_logSend {s : DaemonState} {fd : Nat} {m : Message}
    (hm : m.id = 7331 ∨ m.id = 1337) (h : sentIdsOk s) :
    sentIdsOk (logSend s fd m) := by
  intro e he
  rcases List.mem_append.mp he with he | he
  · exact h e he
  · rcases List.mem_singleton.mp he with rfl
    exact hm

theorem sentIdsOk_delete_client {s : DaemonState} (fd : Nat) (h : sentIdsOk s) :
    sentIdsOk (delete_client s fd) := by
  intro e he
  rw [delete_client_sent] at he
  exact h e he

theorem sentIdsOk_remove_req {s : DaemonState} (fd : Nat) (h : sentIdsOk s) :
    sentIdsOk (remove_req s fd) := by
  intro e he
  rw [(remove_req_fields s fd).2.1] at he
  exact h e he

theorem sentIdsOk_try_schedule_go (sendOk : Nat → Bool) :
    ∀ fuel s, sentIdsOk s → sentIdsOk (try_schedule_go sendOk fuel s) := by
  intro fuel
  induction fuel with
  | zero => intro s h; exact h
  | succ fuel ih =>
    intro s h
    unfold try_schedule_go
    split
    · exact h
    · split
      · intro e he
        rcases List.mem_append.mp he with he | he
        · exact h e he
        · rcases List.mem_singleton.mp he with rfl
          exact Or.inl rfl
      · exact ih _ (sentIdsOk_delete_client _ h)

theorem sentIdsOk_try_schedule (sendOk : Nat → Bool) (s : DaemonState)
    (h : sentIdsOk s) : sentIdsOk (try_schedule sendOk s) :=
  sentIdsOk_try_schedule_go sendOk _ s h

theorem sentIdsOk_bcast_go (sendOk : Nat → Bool) :
    ∀ l s, sentIdsOk s → sentIdsOk (bcast_go sendOk l s) := by
  intro l
  induction l with
  | nil => intro s h; exact h
  | cons c0 rest ih =>
    intro s h
    unfold bcast_go
    split
    · exact ih s h
    · split
      · exact ih _ (sentIdsOk_logSend (Or.inl rfl) h)
      · exact ih _ (sentIdsOk_delete_client _ h)

theorem insert_req_sent (s : DaemonState) (fd : Nat) :
    (insert_req s fd).sent = s.sent := by
  unfold insert_req
  split <;> rfl

theorem sentIdsOk_register_step (sendOk : Nat → Bool) (newId : Nat) (s : DaemonState)
    (c : NvClient) (m : Message) (h : sentIdsOk s) :
    sentIdsOk (register_step sendOk newId s c m) := by
  unfold register_step
  split
  · exact sentIdsOk_delete_client _ h
  · split
    · exact sentIdsOk_logSend (Or.inl rfl) (fun e he => h e he)
    · exact sentIdsOk_delete_client _ (fun e he => h e he)

theorem sentIdsOk_process_msg (sendOk : Nat → Bool) (newId : Nat) (s : DaemonState)
    (c : NvClient) (m : Message) (h : sentIdsOk s) :
    sentIdsOk (process_msg sendOk newId s c m) := by
  unfold process_msg
  split
  · exact sentIdsOk_register_step sendOk newId s c m h
  · split
    · exact h
    · exact sentIdsOk_bcast_go sendOk _ _ (fun e he => h e he)
  · split
    · intro e he
      exact sentIdsOk_bcast_go sendOk
        ({ s with scheduler_on := false } : DaemonState).clients
        { s with scheduler_on := false } (fun e2 he2 => h e2 he2) e he
    · exact h
  · dsimp only
    split
    · intro e he
      exact h e he
    · exact h
  · split
    · split
      · dsimp only
        split
        · intro e he
          rw [insert_req_sent] at he
          exact h e he
        · refine sentIdsOk_try_schedule sendOk _ ?_
          intro e he
          rw [insert_req_sent] at he
          exact h e he
      · exact h
    · exact sentIdsOk_delete_client _ h
  · split
    · split
      · dsimp only
        split
        · exact sentIdsOk_remove_req _ h
        · exact sentIdsOk_try_schedule sendOk _ (sentIdsOk_remove_req _ h)
      · exact h
    · exact sentIdsOk_delete_client _ h
  · exact h
  · exact h
  · exact h

theorem sentIdsOk_dstep {s s' : DaemonState} (hs : DStep s s') (h : sentIdsOk s) :
    sentIdsOk s' := by
  cases hs with
  | accept fd => exact fun e he => h e he
  | dispatch sendOk newId c m hc hid hfresh =>
    exact sentIdsOk_process_msg sendOk newId s c m h
  | evict sendOk c hc =>
    unfold evict_step
    dsimp only
    split
    · exact sentIdsOk_try_schedule sendOk _ (sentIdsOk_delete_client _ h)
    · exact sentIdsOk_delete_client _ h
  | timer sendOk =>
    unfold timer_expire
    split
    · split
      · exact h
      · split
        · intro e he
          rcases List.mem_append.mp he with he | he
          · exact h e he
          · rcases List.mem_singleton.mp he with rfl
            exact Or.inr rfl
        · exact sentIdsOk_try_schedule sendOk _ (sentIdsOk_delete_client _ h)
    · exact h

/-- Counterexample to C8: a reachable run in which a client registers with
generated id `0xabcd = 43981` — the REGISTER reply's `data` indeed parses
back to 43981 — and then receives a LOCK_OK whose `id` field is the fixed
placeholder 7331, not the client's id.  The daemon never echoes the
client id in later messages. -/
theorem c8_counterexample :
    DReach (process_msg (fun _ => true) 0
      (process_msg (fun _ => true) 43981 (accept_client daemonInit 5)
        ⟨5, NVSHARE_UNREGISTERED_ID, [], []⟩ ⟨.REGISTER, [], [], 0, []⟩)
      ⟨5, 43981, [], []⟩ ⟨.REQ_LOCK, [], [], 43981, []⟩)
    ∧ (5, lockOkMsg) ∈ (process_msg (fun _ => true) 0
      (process_msg (fun _ => true) 43981 (accept_client daemonInit 5)
        ⟨5, NVSHARE_UNREGISTERED_ID, [], []⟩ ⟨.REGISTER, [], [], 0, []⟩)
      ⟨5, 43981, [], []⟩ ⟨.REQ_LOCK, [], [], 43981, []⟩).sent
    ∧ (5, registerReply true 43981) ∈ (process_msg (fun _ => true) 0
      (process_msg (fun _ => true) 43981 (accept_client daemonInit 5)
        ⟨5, NVSHARE_UNREGISTERED_ID, [], []⟩ ⟨.REGISTER, [], [], 0, []⟩)
      ⟨5, 43981, [], []⟩ ⟨.REQ_LOCK, [], [], 43981, []⟩).sent
    ∧ (⟨5, 43981, [], []⟩ : NvClient) ∈ (process_msg (fun _ => true) 0
      (process_msg (fun _ => true) 43981 (accept_client daemonInit 5)
        ⟨5, NVSHARE_UNREGISTERED_ID, [], []⟩ ⟨.REGISTER, [], [], 0, []⟩)
      ⟨5, 43981, [], []⟩ ⟨.REQ_LOCK, [], [], 43981, []⟩).clients
    ∧ parseHexChars (registerReply true 43981).data = 43981
    ∧ lockOkMsg.id = 7331
    ∧ (7331 : Nat) ≠ 43981 := by
  refine ⟨?_, by decide, by decide, by decide, by decide, rfl, by decide⟩
  exact DReach.step
    (DReach.step (DReach.step DReach.init (DStep.accept 5))
      (DStep.dispatch (fun _ => true) 43981 ⟨5, NVSHARE_UNREGISTERED_ID, [], []⟩
        ⟨.REGISTER, [], [], 0, []⟩ (by decide) (by decide) (by decide)))
    (DStep.dispatch (fun _ => true) 0 ⟨5, 43981, [], []⟩
      ⟨.REQ_LOCK, [], [], 43981, []⟩ (by decide) (by decide) (by decide))

/-- C8 (amended): the REGISTER reply's `data` holds the 16 lowercase hex
digits of the generated client id and parses back to exactly that id; the
`id` field of every daemon-originated message, however, is a fixed
placeholder — 7331 from the event loop's `out_msg` (including LOCK_OK and
the SCHED_ON/SCHED_OFF broadcasts) or 1337 from the timer's DROP_LOCK —
and never the client's id. -/
theorem c8_register_id_contract :
    (∀ (schedOn : Bool) (newId : Nat), newId < 2 ^ 64 →
      parseHexChars (registerReply schedOn newId).data = newId)
    ∧ (∀ s, DReach s → sentIdsOk s) := by
  constructor
  · intro schedOn newId hlt
    show parseHexChars (toHexDigits 16 newId) = newId
    apply parseHex_toHexDigits
    calc newId < 2 ^ 64 := hlt
      _ = 16 ^ 16 := by norm_num
  · intro s h
    induction h with
    | init => intro e he; cases he
    | step hr hstep ih => exact sentIdsOk_dstep hstep ih

/-- C8 witness: the reply for id `0xf00d = 61453` round-trips, and the
initial state's (empty) send log trivially satisfies the id invariant. -/
theorem c8_register_id_contract_witness :
    parseHexChars (registerReply true 61453).data = 61453
    ∧ sentIdsOk daemonInit :=
  ⟨c8_register_id_contract.1 true 61453 (by norm_num),
   c8_register_id_contract.2 daemonInit DReach.init⟩

/-- C10 witness: the contract evaluated at source "abc" and a 3-byte
destination (a truncating copy). -/
theorem c10_strlcpy_contract_witness :
    (strlcpy_model ['a', 'b', 'c'] 3).2 = (['a', 'b', 'c'] : List Char).length
    ∧ ((3 : Nat) = 0 → (strlcpy_model ['a', 'b', 'c'] 3).1 = [])
    ∧ ((0 : Nat) < 3 →
        (strlcpy_model ['a', 'b', 'c'] 3).1
          = (['a', 'b', 'c'] : List Char).take (3 - 1) ++ [nulChar]
        ∧ (strlcpy_model ['a', 'b', 'c'] 3).1.length ≤ 3
        ∧ ((strlcpy_model ['a', 'b', 'c'] 3).1.dropLast).length ≤ 3 - 1
        ∧ (3 ≤ (strlcpy_model ['a', 'b', 'c'] 3).2
            ↔ (['a', 'b', 'c'] : List Char).take (3 - 1) ≠ ['a', 'b', 'c'])) :=
  c10_strlcpy_contract ['a', 'b', 'c'] 3
